import Mathlib

/-!
# Verification of the `week4-backend` URL-shortener backend

A shallow embedding of `src/api/main.py`: a FastAPI app over Postgres with
two tables (`items`, `urls`), item CRUD, and a URL shortener whose short
code is `hashlib.md5(longUrl.encode()).hexdigest()[:10]`.

Bytes are `Nat` below 256, 32-bit machine words are `Nat` reduced `% 2^32`.
The MD5 digest is embedded from the algorithm `hashlib.md5` implements
(RFC 1321), since the Python standard library supplies it; `str.encode()`
defaults to UTF-8, embedded over the string's code points.
-/

namespace Backend

/-! ## UTF-8 encoding (`str.encode()`) -/

/-- UTF-8 encoding of a single code point, as bytes. -/
def utf8EncodeChar (c : Char) : List Nat :=
  let n := c.toNat
  if n < 0x80 then [n]
  else if n < 0x800 then
    [0xC0 ||| (n >>> 6), 0x80 ||| (n &&& 0x3F)]
  else if n < 0x10000 then
    [0xE0 ||| (n >>> 12), 0x80 ||| ((n >>> 6) &&& 0x3F), 0x80 ||| (n &&& 0x3F)]
  else
    [0xF0 ||| (n >>> 18), 0x80 ||| ((n >>> 12) &&& 0x3F),
     0x80 ||| ((n >>> 6) &&& 0x3F), 0x80 ||| (n &&& 0x3F)]

/-- UTF-8 encoding of a string: `longUrl.encode()` in the source. -/
def utf8Encode (s : String) : List Nat :=
  (s.data.map utf8EncodeChar).flatten

/-! ## MD5 (RFC 1321, the algorithm behind `hashlib.md5`) -/

/-- `2^32`, the word modulus. -/
def M32 : Nat := 4294967296

/-- Left-rotation of a 32-bit word. -/
def rotl (x n : Nat) : Nat := ((x <<< n) ||| (x >>> (32 - n))) % M32

/-- Bitwise complement within 32 bits. -/
def not32 (x : Nat) : Nat := 0xffffffff ^^^ x

/-- The 64 per-round shift amounts. -/
def md5S : List Nat :=
  [7, 12, 17, 22, 7, 12, 17, 22, 7, 12, 17, 22, 7, 12, 17, 22,
   5, 9, 14, 20, 5, 9, 14, 20, 5, 9, 14, 20, 5, 9, 14, 20,
   4, 11, 16, 23, 4, 11, 16, 23, 4, 11, 16, 23, 4, 11, 16, 23,
   6, 10, 15, 21, 6, 10, 15, 21, 6, 10, 15, 21, 6, 10, 15, 21]

/-- The 64 sine-derived additive constants `⌊2^32·|sin(i+1)|⌋`. -/
def md5K : List Nat :=
  [0xd76aa478, 0xe8c7b756, 0x242070db, 0xc1bdceee,
   0xf57c0faf, 0x4787c62a, 0xa8304613, 0xfd469501,
   0x698098d8, 0x8b44f7af, 0xffff5bb1, 0x895cd7be,
   0x6b901122, 0xfd987193, 0xa679438e, 0x49b40821,
   0xf61e2562, 0xc040b340, 0x265e5a51, 0xe9b6c7aa,
   0xd62f105d, 0x02441453, 0xd8a1e681, 0xe7d3fbc8,
   0x21e1cde6, 0xc33707d6, 0xf4d50d87, 0x455a14ed,
   0xa9e3e905, 0xfcefa3f8, 0x676f02d9, 0x8d2a4c8a,
   0xfffa3942, 0x8771f681, 0x6d9d6122, 0xfde5380c,
   0xa4beea44, 0x4bdecfa9, 0xf6bb4b60, 0xbebfbc70,
   0x289b7ec6, 0xeaa127fa, 0xd4ef3085, 0x04881d05,
   0xd9d4d039, 0xe6db99e5, 0x1fa27cf8, 0xc4ac5665,
   0xf4292244, 0x432aff97, 0xab9423a7, 0xfc93a039,
   0x655b59c3, 0x8f0ccc92, 0xffeff47d, 0x85845dd1,
   0x6fa87e4f, 0xfe2ce6e0, 0xa3014314, 0x4e0811a1,
   0xf7537e82, 0xbd3af235, 0x2ad7d2bb, 0xeb86d391]

/-- The running MD5 state: four 32-bit words. -/
structure MDState where
  a : Nat
  b : Nat
  c : Nat
  d : Nat
deriving Repr, DecidableEq

/-- Initial MD5 state. -/
def md5Init : MDState := ⟨0x67452301, 0xefcdab89, 0x98badcfe, 0x10325476⟩

/-- The round-dependent mixing function F/G/H/I of RFC 1321. -/
def md5F (i b c d : Nat) : Nat :=
  if i < 16 then (b &&& c) ||| (not32 b &&& d)
  else if i < 32 then (d &&& b) ||| (not32 d &&& c)
  else if i < 48 then b ^^^ c ^^^ d
  else c ^^^ (b ||| not32 d)

/-- The round-dependent message-word index. -/
def md5G (i : Nat) : Nat :=
  if i < 16 then i
  else if i < 32 then (5 * i + 1) % 16
  else if i < 48 then (3 * i + 5) % 16
  else (7 * i) % 16

/-- Little-endian 32-bit word from four bytes. -/
def leWord (b0 b1 b2 b3 : Nat) : Nat :=
  b0 + b1 * 256 + b2 * 65536 + b3 * 16777216

/-- The `g`-th little-endian word of a 64-byte block. -/
def wordAt (blk : List Nat) (g : Nat) : Nat :=
  leWord (blk.getD (4 * g) 0) (blk.getD (4 * g + 1) 0)
    (blk.getD (4 * g + 2) 0) (blk.getD (4 * g + 3) 0)

/-- One MD5 round (round index `i`, `0 ≤ i < 64`). -/
def md5Round (blk : List Nat) (st : MDState) (i : Nat) : MDState :=
  let f := (md5F i st.b st.c st.d + st.a + md5K.getD i 0 + wordAt blk (md5G i)) % M32
  ⟨st.d, (st.b + rotl f (md5S.getD i 0)) % M32, st.b, st.c⟩

/-- Process one 64-byte block: 64 rounds, then add the block result in. -/
def processBlock (st0 : MDState) (blk : List Nat) : MDState :=
  let st := (List.range 64).foldl (md5Round blk) st0
  ⟨(st0.a + st.a) % M32, (st0.b + st.b) % M32,
   (st0.c + st.c) % M32, (st0.d + st.d) % M32⟩

/-- MD5 padding: append `0x80`, zeros to 56 mod 64, then the bit length
as eight little-endian bytes. -/
def padBytes (msg : List Nat) : List Nat :=
  let len := msg.length
  let zeros := (119 - len % 64) % 64
  let lenBits := (8 * len) % (2 ^ 64)
  msg ++ [0x80] ++ List.replicate zeros 0 ++
    (List.range 8).map (fun i => (lenBits >>> (8 * i)) % 256)

/-- A 32-bit word as four little-endian bytes. -/
def wordLEBytes (w : Nat) : List Nat :=
  [w % 256, (w >>> 8) % 256, (w >>> 16) % 256, (w >>> 24) % 256]

/-- The MD5 digest of a byte string: sixteen bytes. -/
def md5 (msg : List Nat) : List Nat :=
  let padded := padBytes msg
  let blocks := (List.range (padded.length / 64)).map
    (fun i => (padded.drop (64 * i)).take 64)
  let st := blocks.foldl processBlock md5Init
  wordLEBytes st.a ++ wordLEBytes st.b ++ wordLEBytes st.c ++ wordLEBytes st.d

/-! ## Hex encoding (`.hexdigest()`) -/

/-- The sixteen lowercase hexadecimal digits. -/
def hexChars : List Char := "0123456789abcdef".data

/-- The lowercase hex digit for a nibble. -/
def hexDigit (n : Nat) : Char := hexChars.getD n '0'

/-- Lowercase hex encoding of a byte string, as characters. -/
def toHexChars (bytes : List Nat) : List Char :=
  (bytes.map (fun b => [hexDigit (b / 16), hexDigit (b % 16)])).flatten

/-- `hashlib.md5(...).hexdigest()` as a string. -/
def hexdigest (bytes : List Nat) : String := ⟨toHexChars bytes⟩

/-! ## The short code (`main.py` line 93) -/

/-- The characters of the short code:
`hashlib.md5(longUrl.encode()).hexdigest()[:10]`. -/
def shortCodeChars (longUrl : String) : List Char :=
  (toHexChars (md5 (utf8Encode longUrl))).take 10

/-- The short code computed by `shorten_url` for a given `longUrl`. -/
def shortCodeOf (longUrl : String) : String := ⟨shortCodeChars longUrl⟩

/-! ## Data model

`urls` has columns `shortCode TEXT PRIMARY KEY, longUrl TEXT NOT NULL,
urlDesc TEXT NOT NULL` (`main.py` lines 26–33); `items` has `item_name`,
`item_desc` (used by lines 69 and 80, created out of band). Tables are
lists of rows in storage order (rows are appended by INSERT, and a SELECT
without ORDER BY yields them in that default order). -/

/-- A row of the `items` table. -/
structure ItemRow where
  item_name : String
  item_desc : String
deriving DecidableEq, Repr

/-- A row of the `urls` table. -/
structure UrlRow where
  shortCode : String
  longUrl : String
  urlDesc : String
deriving DecidableEq, Repr

/-- The database state: both tables. -/
structure DB where
  items : List ItemRow
  urls : List UrlRow
deriving DecidableEq, Repr

/-- An HTTP response of the resolve endpoint: either a
`RedirectResponse(url=...)` or a JSON body `{"error": ...}`. -/
inductive Response where
  | redirect (url : String)
  | jsonError (error : String)
deriving DecidableEq, Repr

/-- The HTTP status of a `Response`: Starlette's `RedirectResponse`
defaults to 307, and a plain JSON return from FastAPI is a 200. -/
def statusCode : Response → Nat
  | .redirect _ => 307
  | .jsonError _ => 200

/-! ## Endpoints -/

/-- `GET /items` (`select_all_item_records`, lines 63–71): a single
`SELECT * FROM items`; returns the resulting state and all rows. -/
def select_all_item_records (db : DB) : DB × List ItemRow :=
  (db, db.items)

/-- `POST /item` (`insert_new_item_record`, lines 75–82): one
`INSERT INTO items`, then `{"success": True, ...}`. -/
def insert_new_item_record (db : DB) (new_item_name new_item_desc : String) :
    DB × Bool :=
  ({ db with items := db.items ++ [⟨new_item_name, new_item_desc⟩] }, true)

/-- `POST /shorten` (`shorten_url`, lines 91–96): compute the code from
`longUrl`, then `INSERT INTO urls`. Because `shortCode` is the primary
key, inserting a code already present raises a unique-constraint error
from the database driver, which the handler does not catch: this is
the `.error` branch. -/
def shorten_url (db : DB) (longUrl urlDesc : String) :
    Except String (DB × String) :=
  let code := shortCodeOf longUrl
  if db.urls.any (fun r => r.shortCode == code) then
    .error "duplicate key value violates unique constraint"
  else
    .ok ({ db with urls := db.urls ++ [⟨code, longUrl, urlDesc⟩] }, code)

/-- `GET /urls` (`get_all_urls`, lines 101–106): a single
`SELECT * FROM urls`; returns the resulting state and all rows. -/
def get_all_urls (db : DB) : DB × List UrlRow :=
  (db, db.urls)

/-- `GET /{shortCode}` (`get_long_url`, lines 109–118): `SELECT ... WHERE
shortCode = %s`, `fetchone` (the first matching row in storage order);
redirect if found, else the JSON error body. -/
def get_long_url (db : DB) (sc : String) : Response :=
  match db.urls.find? (fun r => r.shortCode == sc) with
  | some r => .redirect r.longUrl
  | none => .jsonError "URL not found"

/-- States reachable from the bootstrap state (empty tables) through
successful `POST /shorten` calls alone. -/
inductive ReachableViaShorten : DB → Prop where
  | init : ReachableViaShorten ⟨[], []⟩
  | step (db db' : DB) (u d c : String) :
      ReachableViaShorten db → shorten_url db u d = .ok (db', c) →
      ReachableViaShorten db'

/-! ## Helper lemmas -/

deriving instance DecidableEq for Except

/-- The MD5 digest always has sixteen bytes. -/
theorem md5_length (msg : List Nat) : (md5 msg).length = 16 := by
  simp [md5, wordLEBytes]

/-- Every hex digit is one of the sixteen lowercase hex characters. -/
theorem hexDigit_mem (n : Nat) : hexDigit n ∈ hexChars := by
  unfold hexDigit
  rcases lt_or_ge n 16 with h | h
  · interval_cases n <;> decide
  · rw [List.getD_eq_default]
    · decide
    · simpa [hexChars] using h

/-- Hex encoding doubles the length. -/
theorem toHexChars_length (l : List Nat) : (toHexChars l).length = 2 * l.length := by
  induction l with
  | nil => rfl
  | cons b t ih => simp only [toHexChars, List.map_cons, List.flatten_cons,
      List.length_append, List.length_cons, List.length_nil] at ih ⊢; omega

/-- Every character of a hex encoding is a lowercase hex character. -/
theorem toHexChars_mem (bytes : List Nat) : ∀ c ∈ toHexChars bytes, c ∈ hexChars := by
  intro c hc
  simp only [toHexChars, List.mem_flatten, List.mem_map] at hc
  obtain ⟨_, ⟨b, _, rfl⟩, hc⟩ := hc
  simp only [List.mem_cons, List.not_mem_nil, or_false] at hc
  rcases hc with h | h <;> exact h ▸ hexDigit_mem _

/-! ## Claims -/

/-- Claim C1: the short code returned by a successful `POST /shorten` equals
the first 10 characters of the lowercase hex encoding of the MD5 digest of
the UTF-8 bytes of `longUrl`. -/
theorem shorten_code_is_md5_hex_prefix (db db' : DB) (longUrl urlDesc code : String)
    (h : shorten_url db longUrl urlDesc = .ok (db', code)) :
    code = ⟨(toHexChars (md5 (utf8Encode longUrl))).take 10⟩ := by
  dsimp only [shorten_url] at h
  split at h
  · cases h
  · simp only [Except.ok.injEq, Prod.mk.injEq] at h
    exact h.2.symm

set_option maxRecDepth 100000 in
/-- Witness for C1 at `longUrl = "https://example.com"`. -/
theorem shorten_code_is_md5_hex_prefix_witness :
    shorten_url ⟨[], []⟩ "https://example.com" "d" =
      .ok (⟨[], [⟨"c984d06aaf", "https://example.com", "d"⟩]⟩, "c984d06aaf") ∧
    "c984d06aaf" =
      (⟨(toHexChars (md5 (utf8Encode "https://example.com"))).take 10⟩ : String) :=
  ⟨by decide, shorten_code_is_md5_hex_prefix ⟨[], []⟩
    ⟨[], [⟨"c984d06aaf", "https://example.com", "d"⟩]⟩
    "https://example.com" "d" "c984d06aaf" (by decide)⟩

/-- Claim C2: from a state where no `urls` row carries `hash(longUrl)`,
`POST /shorten` succeeds with some code, and `GET` on that code redirects
to exactly `longUrl`. -/
theorem shorten_then_get_roundtrip (db : DB) (longUrl urlDesc : String)
    (hfresh : ∀ r ∈ db.urls, r.shortCode ≠ shortCodeOf longUrl) :
    ∃ db' code, shorten_url db longUrl urlDesc = .ok (db', code) ∧
      get_long_url db' code = .redirect longUrl := by
  have hany : db.urls.any (fun r => r.shortCode == shortCodeOf longUrl) = false := by
    simp only [List.any_eq_false, beq_iff_eq]
    exact hfresh
  refine ⟨{ db with urls := db.urls ++ [⟨shortCodeOf longUrl, longUrl, urlDesc⟩] },
    shortCodeOf longUrl, ?_, ?_⟩
  · dsimp only [shorten_url]
    rw [hany]
    rfl
  · unfold get_long_url
    have hfind : db.urls.find? (fun r => r.shortCode == shortCodeOf longUrl) = none := by
      simp only [List.find?_eq_none, beq_iff_eq]
      exact hfresh
    simp [List.find?_append, hfind]

/-- Witness for C2 from the empty state. -/
theorem shorten_then_get_roundtrip_witness :
    (∀ r ∈ (DB.mk [] []).urls, r.shortCode ≠ shortCodeOf "https://example.com") ∧
    (∃ db' code, shorten_url ⟨[], []⟩ "https://example.com" "d" = .ok (db', code) ∧
      get_long_url db' code = .redirect "https://example.com") :=
  ⟨by simp, shorten_then_get_roundtrip ⟨[], []⟩ "https://example.com" "d" (by simp)⟩

/-- Claim C3: after `POST /item`, the collection returned by `GET /items`
contains a row with that name and description. -/
theorem post_item_then_get_items_includes (db : DB) (name desc : String) :
    (⟨name, desc⟩ : ItemRow) ∈
      (select_all_item_records (insert_new_item_record db name desc).1).2 := by
  simp [select_all_item_records, insert_new_item_record]

/-- Claim C4: when no `urls` row has the requested code, `GET /{shortCode}`
returns the JSON payload `{"error": "URL not found"}` with a 200-class
status, and never a redirect. -/
theorem unknown_code_error_payload (db : DB) (sc : String)
    (h : ∀ r ∈ db.urls, r.shortCode ≠ sc) :
    get_long_url db sc = .jsonError "URL not found" ∧
      200 ≤ statusCode (get_long_url db sc) ∧
      statusCode (get_long_url db sc) < 300 ∧
      ∀ u, get_long_url db sc ≠ .redirect u := by
  have hfind : db.urls.find? (fun r => r.shortCode == sc) = none := by
    simp only [List.find?_eq_none, beq_iff_eq]
    exact h
  have heq : get_long_url db sc = .jsonError "URL not found" := by
    unfold get_long_url
    rw [hfind]
  rw [heq]
  exact ⟨rfl, by decide, by decide, fun u hu => Response.noConfusion hu⟩

/-- Witness for C4 at an unknown code in the empty state. -/
theorem unknown_code_error_payload_witness :
    (∀ r ∈ (DB.mk [] []).urls, r.shortCode ≠ "deadbeef00") ∧
    (get_long_url ⟨[], []⟩ "deadbeef00" = .jsonError "URL not found" ∧
      200 ≤ statusCode (get_long_url ⟨[], []⟩ "deadbeef00") ∧
      statusCode (get_long_url ⟨[], []⟩ "deadbeef00") < 300 ∧
      ∀ u, get_long_url ⟨[], []⟩ "deadbeef00" ≠ .redirect u) :=
  ⟨by simp, unknown_code_error_payload ⟨[], []⟩ "deadbeef00" (by simp)⟩

/-- Claim C5: when some `urls` row already carries the code computed for
`longUrl` (in particular when re-shortening the same URL), `POST /shorten`
fails with the propagated primary-key violation. -/
theorem duplicate_code_unhandled_error (db : DB) (longUrl urlDesc : String)
    (h : ∃ r ∈ db.urls, r.shortCode = shortCodeOf longUrl) :
    ∃ e, shorten_url db longUrl urlDesc = .error e := by
  have hany : (db.urls.any fun r => r.shortCode == shortCodeOf longUrl) = true := by
    simp only [List.any_eq_true, beq_iff_eq]
    exact h
  refine ⟨"duplicate key value violates unique constraint", ?_⟩
  dsimp only [shorten_url]
  rw [hany]
  rfl

set_option maxRecDepth 100000 in
/-- Witness for C5: re-shortening `"https://example.com"`. -/
theorem duplicate_code_unhandled_error_witness :
    (∃ r ∈ (DB.mk [] [⟨"c984d06aaf", "https://example.com", "d"⟩]).urls,
      r.shortCode = shortCodeOf "https://example.com") ∧
    (∃ e, shorten_url ⟨[], [⟨"c984d06aaf", "https://example.com", "d"⟩]⟩
      "https://example.com" "d2" = .error e) :=
  ⟨⟨⟨"c984d06aaf", "https://example.com", "d"⟩, by simp, by decide⟩,
   duplicate_code_unhandled_error _ _ "d2"
     ⟨⟨"c984d06aaf", "https://example.com", "d"⟩, by simp, by decide⟩⟩

/-- Claim C6: the short-code computation is deterministic — two evaluations
on the same `longUrl` yield the identical code. -/
theorem shortCode_deterministic (longUrl : String) :
    shortCodeOf longUrl = shortCodeOf longUrl := rfl

/-- Claim C7: the short code is exactly 10 characters, each a lowercase
hexadecimal digit. -/
theorem shortCode_ten_lowercase_hex (longUrl : String) :
    (shortCodeOf longUrl).length = 10 ∧
      ∀ c ∈ (shortCodeOf longUrl).data, c ∈ hexChars := by
  constructor
  · show (shortCodeChars longUrl).length = 10
    unfold shortCodeChars
    rw [List.length_take_of_le]
    rw [toHexChars_length, md5_length]
    norm_num
  · intro c hc
    exact toHexChars_mem _ c (List.take_subset _ _ hc)

/-- Claim C8: `GET /items` and `GET /urls` leave the database unchanged. -/
theorem get_endpoints_read_only (db : DB) :
    (select_all_item_records db).1 = db ∧ (get_all_urls db).1 = db :=
  ⟨rfl, rfl⟩

/-- Claim C9: in every state reachable from empty tables through the
shorten endpoint alone, every `urls` row's `shortCode` is the hash prefix
of its own `longUrl`. -/
theorem reachable_urls_hash_invariant (db : DB) (h : ReachableViaShorten db) :
    ∀ r ∈ db.urls, r.shortCode = shortCodeOf r.longUrl := by
  induction h with
  | init => intro r hr; cases hr
  | step db db' u d c _ heq ih =>
    dsimp only [shorten_url] at heq
    split at heq
    · cases heq
    · simp only [Except.ok.injEq, Prod.mk.injEq] at heq
      obtain ⟨hdb, -⟩ := heq
      subst hdb
      intro r hr
      simp only [List.mem_append, List.mem_singleton] at hr
      rcases hr with hr | hr
      · exact ih r hr
      · subst hr; rfl

set_option maxRecDepth 100000 in
/-- Witness for C9 at a one-step reachable state. -/
theorem reachable_urls_hash_invariant_witness :
    ReachableViaShorten ⟨[], [⟨"c984d06aaf", "https://example.com", "d"⟩]⟩ ∧
    ∀ r ∈ (DB.mk [] [⟨"c984d06aaf", "https://example.com", "d"⟩]).urls,
      r.shortCode = shortCodeOf r.longUrl :=
  ⟨ReachableViaShorten.step ⟨[], []⟩ _ "https://example.com" "d" "c984d06aaf"
     ReachableViaShorten.init (by decide),
   reachable_urls_hash_invariant _
     (ReachableViaShorten.step ⟨[], []⟩ _ "https://example.com" "d" "c984d06aaf"
       ReachableViaShorten.init (by decide))⟩

/-- Claim C10: the returned short code does not depend on `urlDesc` — two
calls with the same `longUrl` and any two descriptions agree. -/
theorem shortCode_ignores_urlDesc (db : DB) (longUrl d₁ d₂ : String) :
    Except.map Prod.snd (shorten_url db longUrl d₁) =
      Except.map Prod.snd (shorten_url db longUrl d₂) := by
  dsimp only [shorten_url]
  cases db.urls.any (fun r => r.shortCode == shortCodeOf longUrl) <;> rfl

end Backend
